import Mathlib

/-!
Verification of the pants-jupyter-plugin mount/unmount engine, artifact
fetcher, creation lock and PEX materializer, as a shallow embedding of
`src/pants_jupyter_plugin/{env,pex,download,lock,plugin}.py`.

Modelling conventions:
* The filesystem is an oracle `FS : String → Option Nat` giving each path
  string a file identity (device+inode); `none` means the path does not
  exist.  `os.path.exists e` is `(fs e).isSome`; `Path(a).samefile(b)` is
  file-identity equality and raises `FileNotFoundError` when either side
  does not exist, modelled by `sameFileE` returning `none`.
* `sys.path` is a `List String`, `sys.modules` is an association list
  from module name to the module's optional `__file__` attribute.
* Python generators (`EnvManager.mount`/`unmount`, `PexManager.mount`/
  `unmount`) are embedded step-indexed: `mountSteps k` / `unmountSteps k`
  is the state after the caller has advanced the iterator `k` times,
  together with the list of paths yielded so far.  `k = 0` is the state
  right after the call, before any advance.
* Exceptions are `Except`; an exception escaping a generator discards the
  model state just as it ends iteration for the Python caller.
-/

namespace PantsJupyter

/-- File system oracle: maps a path string to the identity of the file it
resolves to (`none` = path does not exist). -/
abbrev FS := String → Option Nat

/-- `os.path.exists`. -/
def pathExists (fs : FS) (e : String) : Bool := (fs e).isSome

/-- `Path(a).samefile(b)`: compares the stat identity of both paths and
raises (`none`) when either path does not exist. -/
def sameFileE (fs : FS) (a b : String) : Option Bool :=
  match fs a, fs b with
  | some i, some j => some (i = j)
  | _, _ => none

/-- Components of a path string after `pathlib` normalization: split on
slashes, dropping empty components and `.` components.  The leading-slash
(absolute) flag is tracked separately by `isAbsPath`. -/
def pathParts (s : String) : List String :=
  (s.splitOn "/").filter fun c => c ≠ "" && c ≠ "."

/-- Whether a path string is absolute. -/
def isAbsPath (s : String) : Bool := s.startsWith "/"

/-- `Path(p) in Path(m).parents`: `p` and `m` share the anchor and the
components of `p` are a proper prefix of the components of `m`. -/
def inParents (p m : String) : Bool :=
  isAbsPath p = isAbsPath m && pathParts p ≠ pathParts m
    && (pathParts p).isPrefixOf (pathParts m)

/-- The process-wide import state: `sys.path` and `sys.modules` (module
name paired with its optional `__file__`). -/
structure Sys where
  path : List String
  modules : List (String × Option String)
  deriving Repr, DecidableEq

/-- One filter pass of `EnvManager.unmount` over a single `sys.path`
entry: keep entries that are truthy, exist on disk, and are not the same
file as the popped mount-record path `p`.  `samefile` is only consulted
for entries that exist, and raises when `p` itself does not exist. -/
def keepEntry (fs : FS) (p entry : String) : Except Unit Bool :=
  if entry = "" then .ok false
  else if (fs entry).isNone then .ok false
  else
    match sameFileE fs p entry with
    | none => .error ()
    | some same => .ok (!same)

/-- The `sys.path[:] = [entry for entry in sys.path if ...]` update of
`EnvManager.unmount` for one popped path `p`. -/
def scrubPath (fs : FS) (p : String) : List String → Except Unit (List String)
  | [] => .ok []
  | entry :: rest => do
    let keep ← keepEntry fs p entry
    let rest' ← scrubPath fs p rest
    .ok (if keep then entry :: rest' else rest')

/-- The `sys.modules` purge of `EnvManager.unmount` for one popped path
`p`: delete every module whose `__file__` is set and has `p` among its
parents. -/
def purgeModules (p : String) (mods : List (String × Option String)) :
    List (String × Option String) :=
  mods.filter fun nm =>
    match nm.2 with
    | none => true
    | some f => !inParents p f

/-- `EnvManager.unmount` advanced `k` times by the caller.  Each advance
pops the last mount-record entry, rebuilds `sys.path`, purges
`sys.modules`, and yields the popped path.  Returns the final import
state, the remaining mount record, and the paths yielded so far. -/
def unmountSteps (fs : FS) : Nat → Sys → List String →
    Except Unit (Sys × List String × List String)
  | 0, sys, mounted => .ok (sys, mounted, [])
  | k + 1, sys, mounted =>
    match mounted.getLast? with
    | none => .ok (sys, mounted, [])
    | some p => do
      let path' ← scrubPath fs p sys.path
      let sys' : Sys := ⟨path', purgeModules p sys.modules⟩
      let (sys'', m'', ys) ← unmountSteps fs k sys' mounted.dropLast
      .ok (sys'', m'', p :: ys)

/-- `EnvManager.unmount` run to completion (the `while self.mounted`
loop drains the whole record). -/
def unmountRun (fs : FS) (sys : Sys) (mounted : List String) :
    Except Unit (Sys × List String × List String) :=
  unmountSteps fs mounted.length sys mounted

/-- `EnvManager.mount` advanced `k` times: each advance appends the next
site path to `sys.path` and to the mount record and yields it. -/
def mountSteps : Nat → List String → Sys → List String →
    Sys × List String × List String
  | 0, _, sys, mounted => (sys, mounted, [])
  | _ + 1, [], sys, mounted => (sys, mounted, [])
  | k + 1, p :: rest, sys, mounted =>
    let sys' : Sys := ⟨sys.path ++ [p], sys.modules⟩
    let (sys'', m'', ys) := mountSteps k rest sys' (mounted ++ [p])
    (sys'', m'', p :: ys)

/-- `EnvManager.mount` run to completion over its path parts. -/
def mountRun (ps : List String) (sys : Sys) (mounted : List String) :
    Sys × List String × List String :=
  mountSteps ps.length ps sys mounted

/-- A caller-visible operation on the environment manager: `mount` with
the site paths produced for one artifact, or a full `unmount`. -/
inductive EnvOp where
  | mount (ps : List String)
  | unmount
  deriving Repr, DecidableEq

/-- The site paths an operation splices in (`unmount` splices none). -/
def opPaths : EnvOp → List String
  | .mount ps => ps
  | .unmount => []

/-- One manager operation, fully consumed, on the import state and the
mount record. -/
def runOp (fs : FS) (sys : Sys) (mounted : List String) :
    EnvOp → Except Unit (Sys × List String)
  | .mount ps =>
    let (sys', m', _) := mountRun ps sys mounted
    .ok (sys', m')
  | .unmount =>
    match unmountRun fs sys mounted with
    | .ok (sys', m', _) => .ok (sys', m')
    | .error e => .error e

/-- A sequence of mount/unmount cycles, each fully consumed. -/
def runOps (fs : FS) : List EnvOp → Sys → List String →
    Except Unit (Sys × List String)
  | [], sys, mounted => .ok (sys, mounted)
  | op :: rest, sys, mounted =>
    match runOp fs sys mounted op with
    | .ok (sys', m') => runOps fs rest sys' m'
    | .error e => .error e

/-- The predicate under which one `unmount` filter pass keeps a `sys.path`
entry: non-empty, existing, and not the same file as the popped path. -/
def keepClean (fs : FS) (p entry : String) : Bool :=
  entry ≠ "" && (fs entry).isSome && decide (fs entry ≠ fs p)

/-- The predicate under which the module purge keeps a `sys.modules`
entry: no `__file__`, or the popped path not among the file's parents. -/
def keepModule (p : String) (nm : String × Option String) : Bool :=
  match nm.2 with
  | none => true
  | some f => !inParents p f

theorem purgeModules_eq_filter (p : String) (mods : List (String × Option String)) :
    purgeModules p mods = mods.filter (keepModule p) := rfl

/-- Outcome of one `lock.creation_lock` context execution.  `lockTaken`:
whether the advisory `FileLock` was acquired; `lockPath`: the lock file
used; `observedToken`: the value yielded to the body (`none` = not the
creator); `released`: whether no lock is held after exit (on every exit
path, including a raising body). -/
structure LockRun (E A : Type) where
  lockTaken : Bool
  lockPath : Option String
  observedToken : Option String
  released : Bool
  result : Except E A

/-- `lock.creation_lock`: if `path` exists on entry, yield `None` without
locking; otherwise acquire the blocking file lock at `path + ".lock"`,
re-check existence (`existsAfterWait`: whether another process created
the target while this one waited), and yield `None` if it now exists,
else the lock-file token.  `with FileLock(...)` releases the lock on
every exit path, also when the body raises. -/
def creation_lock {E A : Type} (path : String) (existsPre existsAfterWait : Bool)
    (cb : Option String → Except E A) : LockRun E A :=
  if existsPre then
    { lockTaken := false, lockPath := none, observedToken := none,
      released := true, result := cb none }
  else
    let lock_file := path ++ ".lock"
    let token := if existsAfterWait then none else some lock_file
    { lockTaken := true, lockPath := some lock_file, observedToken := token,
      released := true, result := cb token }

/-- Errors surfacing from `download.download_once`: a `DownloadError` for
a non-success HTTP status, or the `post_process` exception carried
unmodified. -/
inductive DlError (E : Type) where
  | downloadError (msg : String)
  | postError (e : E)
  deriving DecidableEq

/-- Effect trace of one `download.download_once` call.  `networkCalls`:
HTTP GETs issued; `postInvoked`: whether `post_process` ran;
`tmpCreated`/`tmpLeft`: the uniquely-named sibling temporary file was
created / remains after the call; `destCreated`: the temp file was
renamed onto `path`. -/
structure DlRun (E : Type) where
  networkCalls : Nat
  postInvoked : Bool
  tmpCreated : Bool
  tmpLeft : Bool
  destCreated : Bool
  result : Except (DlError E) Unit

/-- `download.download_once url path post`: under the creation lock on
`path`, the body runs only when this caller is the creator
(`existsPre = false` and `existsAfterWait = false`); it opens the temp
file, streams the GET (raising `DownloadError` on a non-2xx/3xx status,
`requests`' `response.ok` is `status < 400`), runs `post_process` on the
temp file (its exception propagating unmodified and aborting the
rename), and only then renames the temp file onto `path`. -/
def download_once {E : Type} (url : String) (existsPre existsAfterWait : Bool)
    (status : Nat) (post : Except E Unit) : DlRun E :=
  if existsPre || existsAfterWait then
    { networkCalls := 0, postInvoked := false, tmpCreated := false,
      tmpLeft := false, destCreated := false, result := .ok () }
  else if !(status < 400 : Bool) then
    { networkCalls := 1, postInvoked := false, tmpCreated := true,
      tmpLeft := true, destCreated := false,
      result := .error (.downloadError
        ("GET of " ++ url ++ " returned " ++ toString status ++ ".")) }
  else
    match post with
    | .error e =>
      { networkCalls := 1, postInvoked := true, tmpCreated := true,
        tmpLeft := true, destCreated := false, result := .error (.postError e) }
    | .ok _ =>
      { networkCalls := 1, postInvoked := true, tmpCreated := true,
        tmpLeft := false, destCreated := true, result := .ok () }

/-- Whether a file name matches the `rglob` pattern for the expected
extension (`*.{extension}`). -/
def matchesExt (extension name : String) : Bool :=
  ("." ++ extension).data.isSuffixOf name.data

/-- The recursive `build_dir.rglob` result: all files in the build
directory (listed recursively) matching the expected extension. -/
def rglobMatches (files : List String) (extension : String) : List String :=
  files.filter (matchesExt extension)

/-- The `BuildFailure` message of
`_PexEnvironmentBootstrapper._extract_resulting_binary`. -/
def buildFailureMsg (extension : String) (found : Nat) : String :=
  "failed to select deterministic build artifact from workdir, "
    ++ ("needed 1 binary file with extension " ++ extension)
    ++ " but found " ++ toString found
    ++ ". Is the BUILD target a binary (pex) output type?"

/-- `_PexEnvironmentBootstrapper._extract_resulting_binary`: exactly one
matching binary is returned; otherwise a `BuildFailure` is raised with
the message naming the expected count (1) and the count found. -/
def extract_resulting_binary (files : List String) (extension : String) :
    Except String String :=
  let binaries := rglobMatches files extension
  if h : binaries.length = 1 then .ok (binaries.get ⟨0, by omega⟩)
  else .error (buildFailureMsg extension binaries.length)

/-- Python's `sep.join(parts)`. -/
def joinSep (sep : String) : List String → String
  | [] => ""
  | [s] => s
  | s :: r :: rest => s ++ sep ++ joinSep sep (r :: rest)

/-- The enumerated interpreter list of `PexManager.IncompatibleError`:
lines `"{index}.) {path}"` numbered from `i`. -/
def enumLines : Nat → List String → List String
  | _, [] => []
  | i, p :: rest => (toString i ++ ".) " ++ p) :: enumLines (i + 1) rest

/-- The `pex-tools info` metadata the materializer consumes: whether the
`pex_hash` key is present, and the declared interpreter constraints. -/
structure PexInfo where
  hasPexHash : Bool
  interpreter_constraints : List String
  deriving DecidableEq

/-- The pex tool as an oracle: responses of `info`, `interpreter -v`
(the `path` field) and `interpreter --all -v` (the `path` fields), each
as a function of the pex tool version used for the invocation. -/
structure PexTool where
  info : String → PexInfo
  selected : String → String
  allInterps : String → List String

/-- A pex-tool subprocess command issued by `PexManager.mount`. -/
inductive Cmd where
  | info
  | interpreterV
  | interpreterAll
  | venv
  deriving DecidableEq, Repr

/-- `PexManager.DEFAULT_VERSION`. -/
def DEFAULT_VERSION : String := "2.1.56"

/-- `PexManager.FALLBACK_VERSION`. -/
def FALLBACK_VERSION : String := "2.1.32"

/-- The pex tool version bound after the `pex_hash` check of
`PexManager.mount`: the primary tool, or the fallback when the
introspected metadata lacks the `pex_hash` key. -/
def chosenPex (t : PexTool) : String :=
  if (t.info DEFAULT_VERSION).hasPexHash then DEFAULT_VERSION else FALLBACK_VERSION

/-- `PexManager.IncompatibleError` diagnostic payload: the PEX path, its
declared interpreter constraints, the interpreters discovered on the
system, and the current interpreter's path and dotted version. -/
structure IncompatibleError where
  pexPath : String
  interpreter_constraints : List String
  compatible_interpreters : List String
  currentExe : String
  version : String
  deriving DecidableEq

/-- The message `PexManager.IncompatibleError.__init__` builds (dedented
f-string plus the enumerated interpreter list, `os.linesep = "\n"`). -/
def IncompatibleError.message (e : IncompatibleError) : String :=
  "The current interpreter " ++ e.currentExe ++ " has version " ++ e.version ++ ".\n"
    ++ "This is not compatible with the PEX at " ++ e.pexPath ++ ".\n"
    ++ "It has interpreter constraints " ++ joinSep " or " e.interpreter_constraints ++ ".\n"
    ++ "There are " ++ toString e.compatible_interpreters.length
    ++ " compatible interpreters on this system:\n"
    ++ joinSep "\n" (enumLines 1 e.compatible_interpreters)

/-- Failure of the locked materialization section: `fsError` models
`Path.samefile` raising on a missing path; `incompatible` is
`PexManager.IncompatibleError`. -/
inductive MountErr where
  | fsError
  | incompatible (e : IncompatibleError)
  deriving DecidableEq

/-- The locked materialization section of `PexManager.mount` (pex.py
126-173): introspect with the primary tool; if `pex_hash` is missing
rebind `pex` to the fallback tool (the closure makes every later
`run_pex_tool` call use it — the `info` call is NOT repeated); ask the
chosen tool for its selected interpreter; if it is not the same file as
the current interpreter, enumerate all interpreters and raise
`IncompatibleError`; otherwise build the venv.  Returns the trace of
tool invocations (tool version, command) and the outcome. -/
def mountLocked (t : PexTool) (fs : FS) (currentExe version pexToMount : String) :
    List (String × Cmd) × Except MountErr Unit :=
  let pexInfo := t.info DEFAULT_VERSION
  let pexV := chosenPex t
  let selected := t.selected pexV
  match sameFileE fs currentExe selected with
  | none => ([(DEFAULT_VERSION, .info), (pexV, .interpreterV)], .error .fsError)
  | some true =>
    ([(DEFAULT_VERSION, .info), (pexV, .interpreterV), (pexV, .venv)], .ok ())
  | some false =>
    ([(DEFAULT_VERSION, .info), (pexV, .interpreterV), (pexV, .interpreterAll)],
     .error (.incompatible
       ⟨pexToMount, pexInfo.interpreter_constraints, t.allInterps pexV,
        currentExe, version⟩))

/-- The `IncompatibleError` raised by `PexManager.mount` for a given
tool oracle and call context. -/
def incompatibleOf (t : PexTool) (currentExe version pexToMount : String) :
    IncompatibleError :=
  ⟨pexToMount, (t.info DEFAULT_VERSION).interpreter_constraints,
   t.allInterps (chosenPex t), currentExe, version⟩

/-- Tool oracle for a PEX whose selected base interpreter differs from
the current one: metadata has `pex_hash`, constraints `==3.9.*`, and the
tool selects `/other`. -/
def tIncompat : PexTool :=
  ⟨fun _ => ⟨true, ["==3.9.*"]⟩, fun _ => "/other", fun _ => ["/other"]⟩

/-- File system for the incompatibility scenario: `/cur` and `/other`
are distinct existing files. -/
def fsIncompat : FS :=
  fun s => if s = "/cur" then some 0 else if s = "/other" then some 1 else none

/-- Tool oracle for a legacy PEX: introspected metadata lacks `pex_hash`
(for every tool version), and the selected interpreter is `/py`. -/
def tLegacy : PexTool :=
  ⟨fun _ => ⟨false, []⟩, fun _ => "/py", fun _ => []⟩

/-- File system for the legacy scenario: only `/py` exists. -/
def fsLegacy : FS := fun s => if s = "/py" then some 0 else none

theorem okBind {ε α β : Type} (a : α) (f : α → Except ε β) :
    (Except.ok a : Except ε α) >>= f = f a := rfl

theorem errBind {ε α β : Type} (e : ε) (f : α → Except ε β) :
    (Except.error e : Except ε α) >>= f = .error e := rfl

theorem keepEntry_eq (fs : FS) (p entry : String) (h : (fs p).isSome) :
    keepEntry fs p entry = .ok (keepClean fs p entry) := by
  obtain ⟨i, hi⟩ := Option.isSome_iff_exists.mp h
  unfold keepEntry keepClean sameFileE
  by_cases he : entry = ""
  · simp [he]
  · cases hfe : fs entry with
    | none => simp [he, hfe]
    | some j =>
      by_cases hij : i = j
      · subst hij
        simp [he, hfe, hi]
      · simp [he, hfe, hi, hij, Ne.symm hij]

theorem scrubPath_eq (fs : FS) (p : String) (l : List String) (h : (fs p).isSome) :
    scrubPath fs p l = .ok (l.filter (keepClean fs p)) := by
  induction l with
  | nil => rfl
  | cons e rest ih =>
    simp only [scrubPath, keepEntry_eq fs p e h, ih, List.filter_cons, okBind]

theorem unmountSteps_char (fs : FS) (k : Nat) (sys : Sys) (mounted : List String)
    (h : ∀ p ∈ mounted.reverse.take k, (fs p).isSome) :
    unmountSteps fs k sys mounted = .ok
      (⟨sys.path.filter fun e => (mounted.reverse.take k).all fun p => keepClean fs p e,
        sys.modules.filter fun nm => (mounted.reverse.take k).all fun p => keepModule p nm⟩,
       (mounted.reverse.drop k).reverse,
       mounted.reverse.take k) := by
  induction k generalizing sys mounted with
  | zero => simp [unmountSteps]
  | succ k ih =>
    cases hm : mounted.reverse with
    | nil =>
      have hm0 : mounted = [] := by simpa using congrArg List.reverse hm
      subst hm0
      simp [unmountSteps]
    | cons p r =>
      have hm0 : mounted = r.reverse ++ [p] := by simpa using congrArg List.reverse hm
      subst hm0
      simp only [hm] at h ⊢
      rw [List.take_succ_cons] at h
      have hp : (fs p).isSome := h p (List.mem_cons_self _ _)
      have hrest : ∀ q ∈ r.take k, (fs q).isSome := fun q hq =>
        h q (List.mem_cons_of_mem _ hq)
      have ih' := ih ⟨sys.path.filter (keepClean fs p),
        purgeModules p sys.modules⟩ r.reverse (by simpa using hrest)
      rw [List.reverse_reverse] at ih'
      simp only [purgeModules_eq_filter, List.filter_filter] at ih'
      simp only [unmountSteps, List.getLast?_concat, List.dropLast_concat,
        scrubPath_eq fs p sys.path hp, okBind, ih', purgeModules_eq_filter,
        List.filter_filter, List.take_succ_cons, List.drop_succ_cons, List.all_cons]
      simp only [Bool.and_comm]

theorem mountSteps_char (k : Nat) (ps : List String) (sys : Sys) (mounted : List String) :
    mountSteps k ps sys mounted =
      (⟨sys.path ++ ps.take k, sys.modules⟩, mounted ++ ps.take k, ps.take k) := by
  induction k generalizing ps sys mounted with
  | zero => simp [mountSteps]
  | succ k ih =>
    cases ps with
    | nil => simp [mountSteps]
    | cons p rest =>
      simp [mountSteps, ih]

theorem mountRun_char (ps : List String) (sys : Sys) (mounted : List String) :
    mountRun ps sys mounted = (⟨sys.path ++ ps, sys.modules⟩, mounted ++ ps, ps) := by
  rw [mountRun, mountSteps_char, List.take_length]

theorem reverse_drop_reverse {α : Type} (l : List α) (k : Nat) :
    (l.reverse.drop k).reverse = l.take (l.length - k) := by
  rw [List.drop_reverse, List.reverse_reverse]

theorem keepClean_iff (fs : FS) (p e : String) :
    keepClean fs p e = true ↔ e ≠ "" ∧ (fs e).isSome ∧ fs e ≠ fs p := by
  simp [keepClean, and_assoc]

theorem keepModule_eq_all (p : String) (nm : String × Option String) :
    keepModule p nm = nm.2.all fun f => !inParents p f := by
  rcases nm with ⟨n, f⟩
  cases f <;> rfl

theorem unmountRun_char (fs : FS) (sys : Sys) (mounted : List String)
    (h : ∀ p ∈ mounted, (fs p).isSome) :
    unmountRun fs sys mounted = .ok
      (⟨sys.path.filter fun e => mounted.reverse.all fun p => keepClean fs p e,
        sys.modules.filter fun nm => mounted.reverse.all fun p => keepModule p nm⟩,
       [], mounted.reverse) := by
  have hlen : mounted.reverse.take mounted.length = mounted.reverse := by
    rw [← List.length_reverse, List.take_length]
  have hdrop : mounted.reverse.drop mounted.length = [] := by
    rw [← List.length_reverse, List.drop_length]
  rw [unmountRun, unmountSteps_char fs mounted.length sys mounted
    (by rw [hlen]; intro p hp; exact h p (List.mem_reverse.mp hp))]
  rw [hlen, hdrop, List.reverse_nil]

/-- Claim C1 (counterexample): with prior search path `[""]` (the empty
entry Python uses for the working directory) and `P = ["/a"]` where `/a`
exists, `mount` then a fully consumed `unmount` ends with search path
`[]`, not `[""]`: the empty entry was dropped, so the round trip does not
restore the pre-mount state even as sets, refuting the claim as stated. -/
theorem c1_roundtrip_counterexample :
    mountRun ["/a"] ⟨[""], []⟩ [] = (⟨["", "/a"], []⟩, ["/a"], ["/a"]) ∧
    unmountRun (fun s => if s = "/a" then some 0 else none) ⟨["", "/a"], []⟩ ["/a"] =
      .ok (⟨[], []⟩, [], ["/a"]) ∧
    "" ∈ ([""] : List String) ∧ "" ∉ ([] : List String) := by
  refine ⟨by decide, ?_, by decide, by decide⟩
  rw [unmountRun_char _ _ _ (by decide)]
  rfl

/-- Claim C1 (amended): mount then fully consumed unmount restores the
search path and module cache exactly and empties the mount record,
provided every mounted path exists on disk, every prior search-path entry
is non-empty, exists, and is not the same file as any mounted path, and
no cached module's origin file lies under any mounted path. -/
theorem c1_mount_unmount_roundtrip (fs : FS) (sys : Sys) (ps : List String)
    (hexist : ∀ p ∈ ps, (fs p).isSome)
    (hpath : ∀ e ∈ sys.path, e ≠ "" ∧ (fs e).isSome ∧ ∀ p ∈ ps, fs e ≠ fs p)
    (hmods : ∀ nm ∈ sys.modules, ∀ p ∈ ps, nm.2.all (fun f => !inParents p f) = true) :
    unmountRun fs (mountRun ps sys []).1 (mountRun ps sys []).2.1 =
      .ok (sys, [], ps.reverse) := by
  rw [mountRun_char]
  rw [unmountRun_char fs ⟨sys.path ++ ps, sys.modules⟩ ([] ++ ps)
    (by intro p hp; exact hexist p (by simpa using hp))]
  simp only [List.nil_append]
  have hfilter : (sys.path ++ ps).filter
      (fun e => ps.reverse.all fun p => keepClean fs p e) = sys.path := by
    rw [List.filter_append]
    have h1 : sys.path.filter (fun e => ps.reverse.all fun p => keepClean fs p e) =
        sys.path := by
      rw [List.filter_eq_self]
      intro e he
      rw [List.all_eq_true]
      intro p hp
      obtain ⟨hne, hs, hne'⟩ := hpath e he
      exact (keepClean_iff fs p e).mpr ⟨hne, hs, hne' p (List.mem_reverse.mp hp)⟩
    have h2 : ps.filter (fun e => ps.reverse.all fun p => keepClean fs p e) = [] := by
      rw [List.filter_eq_nil_iff]
      intro q hq hall
      rw [List.all_eq_true] at hall
      have := (keepClean_iff fs q q).mp (hall q (List.mem_reverse.mpr hq))
      exact this.2.2 rfl
    rw [h1, h2, List.append_nil]
  have hmodsf : sys.modules.filter
      (fun nm => ps.reverse.all fun p => keepModule p nm) = sys.modules := by
    rw [List.filter_eq_self]
    intro nm hnm
    rw [List.all_eq_true]
    intro p hp
    rw [keepModule_eq_all]
    exact hmods nm hnm p (List.mem_reverse.mp hp)
  rw [hfilter, hmodsf]

/-- Claim C1 (witness): a concrete instance of the amended round trip. -/
theorem c1_mount_unmount_roundtrip_witness :
    unmountRun (fun s => if s = "/x" then some 1 else if s = "/lib" then some 2 else none)
      (mountRun ["/x"] ⟨["/lib"], [("mod", none)]⟩ []).1
      (mountRun ["/x"] ⟨["/lib"], [("mod", none)]⟩ []).2.1 =
      .ok (⟨["/lib"], [("mod", none)]⟩, [], ["/x"]) :=
  c1_mount_unmount_roundtrip _ _ _ (by decide) (by decide) (by decide)

/-- Claim C2 (counterexample): unmounting recorded path `/site` from a
search path `["", "/gone", "/keep", "/site"]` (where `/gone` does not
exist and `""` is empty) also removes `""` and `/gone`, although neither
is a non-empty, existing entry resolving to the same file as `/site` —
refuting the claim that such unrelated entries are not removed. -/
theorem c2_scrub_counterexample :
    unmountRun (fun s => if s = "/keep" then some 1 else if s = "/site" then some 2 else none)
      ⟨["", "/gone", "/keep", "/site"], []⟩ ["/site"] =
      .ok (⟨["/keep"], []⟩, [], ["/site"]) ∧
    "" ∈ (["", "/gone", "/keep", "/site"] : List String) ∧
    "/gone" ∈ (["", "/gone", "/keep", "/site"] : List String) ∧
    "" ∉ (["/keep"] : List String) ∧ "/gone" ∉ (["/keep"] : List String) := by
  refine ⟨?_, by decide, by decide, by decide, by decide⟩
  rw [unmountRun_char _ _ _ (by decide)]
  rfl

/-- Claim C2 (amended): for a recorded path that exists on disk, unmount
keeps exactly the live search-path entries that are non-empty, exist on
disk, and do not resolve to the same underlying file as the recorded
path; every entry that is empty, no longer exists, or is the same file is
removed. -/
theorem c2_unmount_scrub (fs : FS) (sys : Sys) (p : String) (h : (fs p).isSome) :
    unmountRun fs sys [p] =
      .ok (⟨sys.path.filter (keepClean fs p), sys.modules.filter (keepModule p)⟩,
        [], [p]) ∧
    ∀ e, keepClean fs p e = true ↔
      e ≠ "" ∧ (fs e).isSome ∧ sameFileE fs p e ≠ some true := by
  obtain ⟨i, hi⟩ := Option.isSome_iff_exists.mp h
  constructor
  · rw [unmountRun_char fs sys [p] (by simpa using h)]
    simp
  · intro e
    rw [keepClean_iff]
    refine and_congr_right fun _ => and_congr_right fun hs => ?_
    obtain ⟨j, hj⟩ := Option.isSome_iff_exists.mp hs
    simp only [sameFileE, hi, hj, Option.some_inj, ne_eq, decide_eq_true_eq]
    omega

/-- Claim C2 (witness): a concrete instance of the amended scrub
characterization. -/
theorem c2_unmount_scrub_witness :
    unmountRun (fun s => if s = "/site" then some 2 else none) ⟨["/site"], []⟩ ["/site"] =
      .ok (⟨[], []⟩, [], ["/site"]) :=
  by
    have h := (c2_unmount_scrub (fun s => if s = "/site" then some 2 else none)
      ⟨["/site"], []⟩ "/site" (by decide)).1
    simpa using h

/-- Baseline-module survival through one stepwise unmount: a cached
module whose entry is kept by every recorded path's purge predicate is
still cached afterwards, and the remaining record came from the original
record. -/
theorem unmountSteps_baseline (fs : FS) (bm : String × Option String) :
    ∀ (k : Nat) (sys : Sys) (mounted : List String) (st : Sys × List String × List String),
      unmountSteps fs k sys mounted = .ok st →
      bm ∈ sys.modules → (∀ p ∈ mounted, keepModule p bm = true) →
      bm ∈ st.1.modules ∧ ∀ p ∈ st.2.1, p ∈ mounted := by
  intro k
  induction k with
  | zero =>
    intro sys mounted st hrun hbm hsafe
    cases hrun
    exact ⟨hbm, fun p hp => hp⟩
  | succ k ih =>
    intro sys mounted st hrun hbm hsafe
    cases hm : mounted.reverse with
    | nil =>
      have hm0 : mounted = [] := by simpa using congrArg List.reverse hm
      subst hm0
      simp only [unmountSteps, List.getLast?_nil] at hrun
      cases hrun
      exact ⟨hbm, fun p hp => hp⟩
    | cons p r =>
      have hm0 : mounted = r.reverse ++ [p] := by simpa using congrArg List.reverse hm
      subst hm0
      simp only [unmountSteps, List.getLast?_concat, List.dropLast_concat] at hrun
      cases hsc : scrubPath fs p sys.path with
      | error e =>
        rw [hsc, errBind] at hrun
        cases hrun
      | ok path' =>
        rw [hsc, okBind] at hrun
        cases hrec : unmountSteps fs k ⟨path', purgeModules p sys.modules⟩
            r.reverse with
        | error e =>
          rw [hrec, errBind] at hrun
          cases hrun
        | ok st' =>
          rw [hrec, okBind] at hrun
          cases hrun
          have hpmem : p ∈ r.reverse ++ [p] :=
            List.mem_append_right _ (List.mem_singleton.mpr rfl)
          have hbm' : bm ∈ purgeModules p sys.modules := by
            rw [purgeModules_eq_filter, List.mem_filter]
            exact ⟨hbm, hsafe p hpmem⟩
          have hsafe' : ∀ q ∈ r.reverse, keepModule q bm = true :=
            fun q hq => hsafe q (List.mem_append_left _ hq)
          obtain ⟨h1, h2⟩ := ih _ _ _ hrec hbm' hsafe'
          exact ⟨h1, fun q hq => List.mem_append_left _ (h2 q hq)⟩

/-- Baseline-module survival across any sequence of fully consumed
mount/unmount operations, tracking that every path in the live mount
record was introduced by some `mount` in the sequence. -/
theorem runOps_baseline (fs : FS) (bm : String × Option String) :
    ∀ (ops : List EnvOp) (sys : Sys) (mounted : List String)
      (st : Sys × List String),
      runOps fs ops sys mounted = .ok st →
      bm ∈ sys.modules →
      (∀ p ∈ mounted, keepModule p bm = true) →
      (∀ op ∈ ops, ∀ p ∈ opPaths op, keepModule p bm = true) →
      bm ∈ st.1.modules ∧ ∀ p ∈ st.2, keepModule p bm = true := by
  intro ops
  induction ops with
  | nil =>
    intro sys mounted st hrun hbm hsafe hops
    cases hrun
    exact ⟨hbm, hsafe⟩
  | cons op rest ih =>
    intro sys mounted st hrun hbm hsafe hops
    cases op with
    | mount ps =>
      simp only [runOps, runOp, mountRun_char] at hrun
      refine ih _ _ _ hrun hbm ?_ fun o ho => hops o (List.mem_cons_of_mem _ ho)
      intro p hp
      rcases List.mem_append.mp hp with hp' | hp'
      · exact hsafe p hp'
      · exact hops (.mount ps) (List.mem_cons_self _ _) p hp'
    | unmount =>
      cases hum : unmountRun fs sys mounted with
      | error e =>
        simp only [runOps, runOp, hum] at hrun
        exact Except.noConfusion hrun
      | ok tr =>
        obtain ⟨t1, t2, t3⟩ := tr
        simp only [runOps, runOp, hum] at hrun
        obtain ⟨h1, h2⟩ := unmountSteps_baseline fs bm mounted.length sys mounted
          (t1, t2, t3) hum hbm hsafe
        exact ih _ _ _ hrun h1 (fun p hp => hsafe p (h2 p hp))
          fun o ho => hops o (List.mem_cons_of_mem _ ho)

/-- Claim C3: a module cached at plugin-load time (before any mount) is
never removed by any number of fully consumed mount/unmount cycles,
provided its origin file (if any) never lies under any mounted path. -/
theorem c3_baseline_protection (fs : FS) (ops : List EnvOp) (sys0 : Sys)
    (bm : String × Option String) (st : Sys × List String)
    (hbm : bm ∈ sys0.modules)
    (hops : ∀ op ∈ ops, ∀ p ∈ opPaths op, bm.2.all (fun f => !inParents p f) = true)
    (hrun : runOps fs ops sys0 [] = .ok st) :
    bm ∈ st.1.modules := by
  refine (runOps_baseline fs bm ops sys0 [] st hrun hbm (by simp) ?_).1
  intro op ho p hp
  rw [keepModule_eq_all]
  exact hops op ho p hp

/-- Claim C3 (witness): one mount/unmount cycle leaves the pre-existing
module `sys` (with no origin file) cached. -/
theorem c3_baseline_protection_witness :
    ("sys", (none : Option String)) ∈
      (⟨[], [("sys", none)]⟩ : Sys).modules ∧
    runOps (fun s => if s = "/v" then some 1 else none)
      [.mount ["/v"], .unmount] ⟨[], [("sys", none)]⟩ [] =
      .ok (⟨[], [("sys", none)]⟩, []) ∧
    ("sys", (none : Option String)) ∈
      (⟨[], [("sys", none)]⟩ : Sys).modules := by
  refine ⟨by decide, ?_, ?_⟩
  · rfl
  · exact c3_baseline_protection (fun s => if s = "/v" then some 1 else none)
      [.mount ["/v"], .unmount] ⟨[], [("sys", none)]⟩ ("sys", none)
      (⟨[], [("sys", none)]⟩, []) (by decide) (by decide) (by rfl)

/-- Claim C10: mount and unmount are lazy generators — with zero advances
nothing is mutated, and after `k` advances exactly the first `k` site
paths have been appended (mount), or exactly the last `k` recorded paths
have been popped, scrubbed from the search path and purged from the
module cache (unmount), the untouched front of the mount record
remaining. -/
theorem c10_lazy_generators (fs : FS) (ps : List String) (sys : Sys)
    (mounted : List String) (k : Nat) :
    mountSteps 0 ps sys mounted = (sys, mounted, []) ∧
    unmountSteps fs 0 sys mounted = .ok (sys, mounted, []) ∧
    mountSteps k ps sys mounted =
      (⟨sys.path ++ ps.take k, sys.modules⟩, mounted ++ ps.take k, ps.take k) ∧
    ((∀ p ∈ mounted.reverse.take k, (fs p).isSome) →
      unmountSteps fs k sys mounted = .ok
        (⟨sys.path.filter fun e => (mounted.reverse.take k).all fun p => keepClean fs p e,
          sys.modules.filter fun nm => (mounted.reverse.take k).all fun p => keepModule p nm⟩,
         mounted.take (mounted.length - k),
         mounted.reverse.take k)) := by
  refine ⟨rfl, rfl, mountSteps_char k ps sys mounted, fun h => ?_⟩
  rw [unmountSteps_char fs k sys mounted h, reverse_drop_reverse]

/-- Claim C10 (witness): one advance of unmount on a two-entry record
pops only the most recent path, leaving the older record entry. -/
theorem c10_lazy_generators_witness :
    unmountSteps (fun s => if s = "/v" then some 1 else if s = "/w" then some 2 else none)
      1 ⟨["/v", "/w"], []⟩ ["/v", "/w"] = .ok (⟨["/v"], []⟩, ["/v"], ["/w"]) := by
  have h := (c10_lazy_generators
    (fun s => if s = "/v" then some 1 else if s = "/w" then some 2 else none)
    [] ⟨["/v", "/w"], []⟩ ["/v", "/w"] 1).2.2.2 (by decide)
  simpa using h

/-- Claim C8: if the target exists on entry no lock is taken and the body
sees no token; otherwise the blocking lock at `path + ".lock"` is taken,
the existence check is repeated, and the body sees no token exactly when
the target appeared while waiting; no lock is held after exit on any
path, including a raising body, and the body's outcome is returned. -/
theorem c8_creation_lock {E A : Type} (path : String) (existsPre existsAfterWait : Bool)
    (cb : Option String → Except E A) :
    (existsPre = true →
      creation_lock path existsPre existsAfterWait cb =
        { lockTaken := false, lockPath := none, observedToken := none,
          released := true, result := cb none }) ∧
    (existsPre = false →
      (creation_lock path existsPre existsAfterWait cb).lockTaken = true ∧
      (creation_lock path existsPre existsAfterWait cb).lockPath =
        some (path ++ ".lock") ∧
      ((creation_lock path existsPre existsAfterWait cb).observedToken = none ↔
        existsAfterWait = true)) ∧
    (creation_lock path existsPre existsAfterWait cb).released = true ∧
    (creation_lock path existsPre existsAfterWait cb).result =
      cb (creation_lock path existsPre existsAfterWait cb).observedToken := by
  cases existsPre <;> cases existsAfterWait <;> simp [creation_lock]

/-- Claim C8 (witness): a concrete creator run takes and names the lock,
observes a token, and the lock is not held afterwards. -/
theorem c8_creation_lock_witness :
    (creation_lock "/cache/tool.pex" false false
      (fun tok => if tok.isSome then (.ok 1 : Except String Nat) else .error "n")).lockTaken
        = true ∧
    (creation_lock "/cache/tool.pex" false false
      (fun tok => if tok.isSome then (.ok 1 : Except String Nat) else .error "n")).lockPath
        = some "/cache/tool.pex.lock" := by
  have h := (c8_creation_lock "/cache/tool.pex" false false
    (fun tok => if tok.isSome then (.ok 1 : Except String Nat) else .error "n")).2.1 rfl
  exact ⟨h.1, by simpa using h.2.1⟩

/-- Claim C5: when the destination already exists the fetch is a no-op
(no network transfer, no post-process, nothing created), and a
successful fresh fetch followed by a second call performs exactly one
network transfer in total. -/
theorem c5_idempotent_fetch {E : Type} (url : String) (status : Nat)
    (post : Except E Unit) :
    download_once url true false status post =
      { networkCalls := 0, postInvoked := false, tmpCreated := false,
        tmpLeft := false, destCreated := false, result := .ok () } ∧
    ((download_once url false false status post).result = .ok () →
      (download_once url false false status post).destCreated = true ∧
      (download_once url false false status post).networkCalls +
        (download_once url true false status post).networkCalls = 1) := by
  constructor
  · rfl
  · intro hok
    by_cases hst : status < 400
    · cases hpost : post with
      | error e =>
        exfalso
        simp [download_once, hst, hpost] at hok
      | ok u =>
        simp [download_once, hst, hpost]
    · exfalso
      simp [download_once, hst] at hok

/-- Claim C5 (witness): a successful fresh fetch then a repeat call
transfers exactly once. -/
theorem c5_idempotent_fetch_witness :
    (download_once "https://x/pex" false false 200 (.ok () : Except String Unit)).destCreated
      = true ∧
    (download_once "https://x/pex" false false 200 (.ok () : Except String Unit)).networkCalls
        + (download_once "https://x/pex" true false 200
            (.ok () : Except String Unit)).networkCalls = 1 :=
  (c5_idempotent_fetch "https://x/pex" 200 (.ok () : Except String Unit)).2 rfl

/-- Claim C6: a non-success HTTP status yields `DownloadError` naming the
status and the destination is never created; a `post_process` exception
propagates unmodified, the destination is never created and the temp
file is left behind; the destination is created exactly when both the
download and `post_process` succeed. -/
theorem c6_download_error_atomicity {E : Type} (url : String) (status : Nat)
    (post : Except E Unit) :
    (¬ status < 400 →
      (download_once url false false status post).result =
        .error (.downloadError
          ("GET of " ++ url ++ " returned " ++ toString status ++ ".")) ∧
      (download_once url false false status post).destCreated = false) ∧
    (∀ e, post = .error e → status < 400 →
      (download_once url false false status post).result = .error (.postError e) ∧
      (download_once url false false status post).destCreated = false ∧
      (download_once url false false status post).tmpLeft = true ∧
      (download_once url false false status post).postInvoked = true) ∧
    ((download_once url false false status post).destCreated = true ↔
      status < 400 ∧ post = .ok ()) := by
  refine ⟨fun hst => by simp [download_once, hst], fun e hpost hst => ?_, ?_⟩
  · simp [download_once, hst, hpost]
  · by_cases hst : status < 400
    · cases hpost : post with
      | error e => simp [download_once, hst, hpost]
      | ok u => simp [download_once, hst, hpost]
    · simp [download_once, hst]

/-- Claim C6 (witness): a 404 aborts with `DownloadError` and creates no
destination file. -/
theorem c6_download_error_atomicity_witness :
    (download_once "https://x/pex" false false 404
      (.ok () : Except String Unit)).result =
      .error (.downloadError "GET of https://x/pex returned 404.") ∧
    (download_once "https://x/pex" false false 404
      (.ok () : Except String Unit)).destCreated = false := by
  have h := (c6_download_error_atomicity "https://x/pex" 404
    (.ok () : Except String Unit)).1 (by omega)
  simpa using h

theorem infix_data_left {u : List Char} (s t : String) (h : u <:+: s.data) :
    u <:+: (s ++ t).data := by
  rw [String.data_append]
  exact h.trans ((List.prefix_append _ _).isInfix)

theorem infix_data_right {u : List Char} (s t : String) (h : u <:+: t.data) :
    u <:+: (s ++ t).data := by
  rw [String.data_append]
  exact h.trans ((List.suffix_append _ _).isInfix)

/-- Claim C9: exactly one matching binary in the (recursively searched)
build output is returned; zero or two-plus matches raise a build failure
whose message names the expected count (needed 1) and the found count. -/
theorem c9_single_binary_extraction (files : List String) (extension : String) :
    (∀ b, rglobMatches files extension = [b] →
      extract_resulting_binary files extension = .ok b) ∧
    ((rglobMatches files extension).length ≠ 1 →
      extract_resulting_binary files extension =
        .error (buildFailureMsg extension (rglobMatches files extension).length) ∧
      ("needed 1 binary file with extension " ++ extension).data <:+:
        (buildFailureMsg extension (rglobMatches files extension).length).data ∧
      (toString (rglobMatches files extension).length).data <:+:
        (buildFailureMsg extension (rglobMatches files extension).length).data) := by
  constructor
  · intro b hb
    simp [extract_resulting_binary, hb]
  · intro h1
    refine ⟨by simp [extract_resulting_binary, h1], ?_, ?_⟩
    · exact infix_data_left _ _ (infix_data_left _ _ (infix_data_left _ _
        (infix_data_right _ _ List.infix_rfl)))
    · exact infix_data_left _ _ (infix_data_right _ _ List.infix_rfl)

/-- Claim C9 (witness): one matching `.pex` file is extracted; two
matches fail with the message naming needed 1 and found 2. -/
theorem c9_single_binary_extraction_witness :
    extract_resulting_binary ["dist/app.pex", "dist/README.md"] "pex" =
      .ok "dist/app.pex" :=
  (c9_single_binary_extraction ["dist/app.pex", "dist/README.md"] "pex").1
    "dist/app.pex" (by decide)

theorem joinSep_contains (sep : String) (l : List String) (s : String) :
    s ∈ l → s.data <:+: (joinSep sep l).data := by
  induction l with
  | nil => intro h; cases h
  | cons x r ih =>
    intro h
    cases r with
    | nil =>
      rw [List.mem_singleton] at h
      subst h
      exact List.infix_rfl
    | cons y rest =>
      rcases List.mem_cons.mp h with rfl | hmem
      · exact ⟨[], (sep ++ joinSep sep (y :: rest)).data, by simp [joinSep]⟩
      · exact (ih hmem).trans ⟨(x ++ sep).data, [], by simp [joinSep]⟩

theorem enumLines_contains (paths : List String) (p : String) :
    ∀ i : Nat, p ∈ paths → p.data <:+: (joinSep "\n" (enumLines i paths)).data := by
  induction paths with
  | nil =>
    intro i h
    cases h
  | cons q rest ih =>
    intro i h
    rcases List.mem_cons.mp h with rfl | hmem
    · have hline : p.data <:+: (toString i ++ ".) " ++ p).data :=
        ⟨(toString i ++ ".) ").data, [], by simp⟩
      refine hline.trans ?_
      rw [enumLines]
      exact joinSep_contains _ _ _ (List.mem_cons_self _ _)
    · cases rest with
      | nil => cases hmem
      | cons q' rest' =>
        refine (ih (i + 1) hmem).trans ?_
        exact ⟨((toString i ++ ".) " ++ q) ++ "\n").data, [],
          by simp [joinSep, enumLines]⟩

/-- Claim C4: when the tool-selected interpreter is not the same file as
the current interpreter, the locked materialization fails with
`IncompatibleError` (after one `info` call and one interpreter listing,
with no venv build, retry, or substitution), and the error message
contains the current interpreter path, its version, the PEX path, every
declared interpreter constraint, and every other available interpreter
discovered on the system. -/
theorem c4_incompatible_error (t : PexTool) (fs : FS)
    (currentExe version pexToMount : String) (i j : Nat)
    (hcur : fs currentExe = some i)
    (hsel : fs (t.selected (chosenPex t)) = some j)
    (hne : i ≠ j) :
    mountLocked t fs currentExe version pexToMount =
      ([(DEFAULT_VERSION, .info), (chosenPex t, .interpreterV),
        (chosenPex t, .interpreterAll)],
       .error (.incompatible (incompatibleOf t currentExe version pexToMount))) ∧
    currentExe.data <:+: (incompatibleOf t currentExe version pexToMount).message.data ∧
    version.data <:+: (incompatibleOf t currentExe version pexToMount).message.data ∧
    pexToMount.data <:+: (incompatibleOf t currentExe version pexToMount).message.data ∧
    (∀ c ∈ (t.info DEFAULT_VERSION).interpreter_constraints,
      c.data <:+: (incompatibleOf t currentExe version pexToMount).message.data) ∧
    (∀ q ∈ t.allInterps (chosenPex t),
      q.data <:+: (incompatibleOf t currentExe version pexToMount).message.data) := by
  refine ⟨?_, ?_, ?_, ?_, ?_, ?_⟩
  · rw [mountLocked]
    simp only [sameFileE, hcur, hsel, hne, decide_eq_true_eq, incompatibleOf]
    simp [hne]
  · exact infix_data_left _ _ (infix_data_left _ _ (infix_data_left _ _
      (infix_data_left _ _ (infix_data_left _ _ (infix_data_left _ _
      (infix_data_left _ _ (infix_data_left _ _ (infix_data_left _ _
      (infix_data_left _ _ (infix_data_left _ _ (infix_data_left _ _
      (infix_data_left _ _ (infix_data_right _ _ List.infix_rfl)))))))))))))
  · exact infix_data_left _ _ (infix_data_left _ _ (infix_data_left _ _
      (infix_data_left _ _ (infix_data_left _ _ (infix_data_left _ _
      (infix_data_left _ _ (infix_data_left _ _ (infix_data_left _ _
      (infix_data_left _ _ (infix_data_left _ _
      (infix_data_right _ _ List.infix_rfl)))))))))))
  · exact infix_data_left _ _ (infix_data_left _ _ (infix_data_left _ _
      (infix_data_left _ _ (infix_data_left _ _ (infix_data_left _ _
      (infix_data_left _ _ (infix_data_left _ _
      (infix_data_right _ _ List.infix_rfl))))))))
  · intro c hc
    exact infix_data_left _ _ (infix_data_left _ _ (infix_data_left _ _
      (infix_data_left _ _ (infix_data_left _ _
      (infix_data_right _ _ (joinSep_contains " or " _ c hc))))))
  · intro q hq
    exact infix_data_right _ _ (enumLines_contains _ q 1 hq)

/-- Claim C4 (witness): a concrete incompatible selection fails with the
expected trace and `IncompatibleError` payload. -/
theorem c4_incompatible_error_witness :
    mountLocked tIncompat fsIncompat "/cur" "3.10.2" "/app.pex" =
      ([(DEFAULT_VERSION, .info), (chosenPex tIncompat, .interpreterV),
        (chosenPex tIncompat, .interpreterAll)],
       .error (.incompatible (incompatibleOf tIncompat "/cur" "3.10.2" "/app.pex"))) :=
  (c4_incompatible_error tIncompat fsIncompat "/cur" "3.10.2" "/app.pex" 0 1
    (by decide) (by decide) (by decide)).1

/-- Claim C7 (counterexample): for a PEX whose metadata lacks the
expected `pex_hash` field, `mount` issues no second introspection with
the fallback tool — the trace contains no `(FALLBACK_VERSION, info)`
entry — refuting the claimed re-introspection, while the flow continues
to a successful venv build with the fallback tool. -/
theorem c7_no_reintrospection_counterexample :
    mountLocked tLegacy fsLegacy "/py" "3.8.0" "/legacy.pex" =
      ([(DEFAULT_VERSION, .info), (FALLBACK_VERSION, .interpreterV),
        (FALLBACK_VERSION, .venv)], .ok ()) ∧
    (FALLBACK_VERSION, Cmd.info) ∉
      (mountLocked tLegacy fsLegacy "/py" "3.8.0" "/legacy.pex").1 := by
  constructor
  · rfl
  · decide

/-- Claim C7 (amended): when the introspected metadata lacks the
expected field, the flow does not fail: the single introspection stays
with the primary tool, every subsequent tool invocation uses the
fallback tool version, and (when the fallback-selected interpreter is
the current one) materialization proceeds to a successful venv build
with the fallback tool. -/
theorem c7_legacy_fallback (t : PexTool) (fs : FS)
    (currentExe version pexToMount : String)
    (hmiss : (t.info DEFAULT_VERSION).hasPexHash = false) :
    (mountLocked t fs currentExe version pexToMount).1.head? =
      some (DEFAULT_VERSION, .info) ∧
    (∀ e ∈ (mountLocked t fs currentExe version pexToMount).1.tail,
      e.1 = FALLBACK_VERSION) ∧
    (sameFileE fs currentExe (t.selected FALLBACK_VERSION) = some true →
      mountLocked t fs currentExe version pexToMount =
        ([(DEFAULT_VERSION, .info), (FALLBACK_VERSION, .interpreterV),
          (FALLBACK_VERSION, .venv)], .ok ())) := by
  have hch : chosenPex t = FALLBACK_VERSION := by
    rw [chosenPex, hmiss]
    simp
  cases hsf : sameFileE fs currentExe (t.selected (chosenPex t)) with
  | none =>
    refine ⟨?_, ?_, ?_⟩ <;>
      simp_all [mountLocked, hch, hsf]
  | some b =>
    cases b <;> refine ⟨?_, ?_, ?_⟩ <;>
      simp_all [mountLocked, hch]

/-- Claim C7 (witness): a concrete legacy PEX mounts successfully with
all post-introspection invocations on the fallback tool. -/
theorem c7_legacy_fallback_witness :
    mountLocked tLegacy fsLegacy "/py" "3.8.0" "/legacy.pex" =
      ([(DEFAULT_VERSION, .info), (FALLBACK_VERSION, .interpreterV),
        (FALLBACK_VERSION, .venv)], .ok ()) :=
  (c7_legacy_fallback tLegacy fsLegacy "/py" "3.8.0" "/legacy.pex" rfl).2.2
    (by decide)

end PantsJupyter
